import Mathlib

/-!
# thp: redirect-chain reconstruction and endpoint measurement

A shallow embedding of `explore.go` (`rearrange`, `sortHelper`) and
`generate.go` (`Generate`) together with the properties of the two stages.

Pointers of the Go program are modelled by inductive types with a `nil`
constructor; the network (`net.LookupHost`, `net.Dial`, `tls.Conn.Handshake`)
is a record of functions indexed by the position of the call, so that every
sequence of outcomes can be supplied.
-/

namespace Thp

/-! ## Data model of `explore.go` -/

/-- The part of `url.URL` the program reads: the `Scheme` field and the values
of the methods `Hostname()` and `String()`. -/
structure URL where
  Scheme : String
  Hostname : String
  String : String
deriving DecidableEq, Repr

mutual
/-- A `*http.Response`: `nil`, or a response with the back reference `Request`
to the request that produced it. -/
inductive HttpResponse where
  | nil : HttpResponse
  | mk (StatusCode : Nat) (Request : HttpRequest) : HttpResponse
/-- A `*http.Request`: `nil`, or a request with its `URL` (a pointer, `none`
when nil) and the back reference `Response` to the redirect response that
caused the request (nil for the origin request). -/
inductive HttpRequest where
  | nil : HttpRequest
  | mk (Method : String) (URL : Option URL) (Response : HttpResponse) : HttpRequest
end

/-- The field `resp.Request` (nil on a nil response). -/
def HttpResponse.Request : HttpResponse → HttpRequest
  | .nil => .nil
  | .mk _ req => req

/-- The field `req.Response` (nil on a nil request). -/
def HttpRequest.Response : HttpRequest → HttpResponse
  | .nil => .nil
  | .mk _ _ resp => resp

/-- The field `req.URL`. -/
def HttpRequest.URL : HttpRequest → Option URL
  | .nil => none
  | .mk _ u _ => u

/-- A `[]byte`: `none` is the nil slice. -/
abbrev Bytes := Option (List Nat)

/-- A Go `error` value, reduced to the text its method `Error()` returns. -/
structure GoError where
  Error : String
deriving DecidableEq, Repr

/-- RoundTrip describes a specific round trip. -/
structure RoundTrip where
  Request : HttpRequest
  Response : HttpResponse
  Body : Bytes
  sortIndex : Int

instance : Inhabited RoundTrip := ⟨⟨.nil, .nil, none, 0⟩⟩

/-! ## `sort.Interface`, `sortHelper` and `sort.Sort` -/

/-- Go's `sort.Interface` over a state `σ` (the receiver). -/
structure Interface (σ : Type) where
  Len : σ → Nat
  Less : σ → Nat → Nat → Bool
  Swap : σ → Nat → Nat → σ

/-- `sortHelper.Len`. -/
def sortHelper.Len (v : List RoundTrip) : Nat := v.length

/-- `sortHelper.Less`: `sh.v[i].sortIndex >= sh.v[j].sortIndex`. An index out
of range (a panic in Go, never produced by `sort.Sort`) reads the default
round trip. -/
def sortHelper.Less (v : List RoundTrip) (i j : Nat) : Bool :=
  decide ((v.getD i default).sortIndex ≥ (v.getD j default).sortIndex)

/-- `sortHelper.Swap`: `sh.v[i], sh.v[j] = sh.v[j], sh.v[i]`, for indices in
range (the only ones `sort.Sort` produces). -/
def sortHelper.Swap (v : List RoundTrip) (i j : Nat) : List RoundTrip :=
  (v.set i (v.getD j default)).set j (v.getD i default)

/-- The `sortHelper` as a `sort.Interface`. -/
def sortHelper : Interface (List RoundTrip) :=
  ⟨sortHelper.Len, sortHelper.Less, sortHelper.Swap⟩

/-- Inner loop of `insertionSort`:
`for j := i; j > a && data.Less(j, j-1); j-- { data.Swap(j, j-1) }`. -/
def insertionSort.inner {σ : Type} (data : Interface σ) (a : Nat) : Nat → σ → σ
  | 0, s => s
  | j + 1, s =>
    if a < j + 1 ∧ data.Less s (j + 1) j = true then
      insertionSort.inner data a j (data.Swap s (j + 1) j)
    else s

/-- Outer loop of `insertionSort`, `n` iterations starting at index `i`. -/
def insertionSort.outer {σ : Type} (data : Interface σ) (a : Nat) : Nat → Nat → σ → σ
  | 0, _, s => s
  | n + 1, i, s => insertionSort.outer data a n (i + 1) (insertionSort.inner data a i s)

/-- Go's `insertionSort(data, a, b)` of package `sort`:
`for i := a + 1; i < b; i++ { for j := i; j > a && data.Less(j, j-1); j-- { data.Swap(j, j-1) } }`. -/
def insertionSort {σ : Type} (data : Interface σ) (a b : Nat) (s : σ) : σ :=
  insertionSort.outer data a (b - (a + 1)) (a + 1) s

/-- Go's `sort.Sort` (package `sort`, Go 1.19 and later). A slice of at most
one element is left alone and a slice of at most 12 elements is sorted by
`insertionSort`. A longer slice goes through pattern-defeating quicksort,
which touches the data only through `Swap` with indices below `Len`: the
sequence of those calls is the parameter `long`. -/
def sortSort (long : (v : List RoundTrip) → List (Fin v.length × Fin v.length))
    (v : List RoundTrip) : List RoundTrip :=
  let n := sortHelper.Len v
  if n ≤ 1 then v
  else if n ≤ 12 then insertionSort sortHelper 0 n v
  else (long v).foldl (fun s p => sortHelper.Swap s p.1.val p.2.val) v

/-! ## `rearrange` -/

mutual
/-- The loop of `rearrange` at its guard `resp != nil && resp.Request != nil`,
with the loop variables `index`, `body` and `out`. -/
def rearrange.loop (index : Int) : HttpResponse → Bytes → List RoundTrip → List RoundTrip
  | .nil, _, out => out
  | .mk st req, body, out => rearrange.body index st req req body out
/-- The loop body of `rearrange` once `resp` is known to be non-nil: append the
round trip, set `body = nil`, continue with `resp.Request.Response`. -/
def rearrange.body (index : Int) (st : Nat) (whole : HttpRequest) :
    HttpRequest → Bytes → List RoundTrip → List RoundTrip
  | .nil, _, out => out
  | .mk _ _ prev, body, out =>
    rearrange.loop index prev none
      (out ++ [{ sortIndex := index, Request := whole, Response := .mk st whole, Body := body }])
end

/-- The function `rearrange` of explore.go. -/
def rearrange (long : (v : List RoundTrip) → List (Fin v.length × Fin v.length))
    (resp : HttpResponse) (body : Bytes) : List RoundTrip :=
  let index : Int := 0
  sortSort long (rearrange.loop index resp body [])

mutual
/-- The responses of the redirect chain behind `resp`, final response first:
`resp`, then `resp.Request.Response`, and so on, as long as the response and
its `Request` are non-nil. -/
def backward : HttpResponse → List HttpResponse
  | .nil => []
  | .mk st req => backward.step st req req
/-- The step of `backward` on the request of a non-nil response. -/
def backward.step (st : Nat) (whole : HttpRequest) : HttpRequest → List HttpResponse
  | .nil => []
  | .mk _ _ prev => .mk st whole :: backward prev
end

/-- The number N of hops of the redirect chain behind `resp`. -/
def hops (resp : HttpResponse) : Nat := (backward resp).length

/-- The guard of the loop of `rearrange`: `resp != nil && resp.Request != nil`. -/
def HttpResponse.hasHop (resp : HttpResponse) : Bool :=
  match resp with
  | .mk _ (.mk _ _ _) => true
  | _ => false

/-- The round trip of one hop: the response paired with the request that
produced it. -/
def hopRoundTrip (body : Bytes) (resp : HttpResponse) : RoundTrip :=
  { Request := resp.Request, Response := resp, Body := body, sortIndex := 0 }

/-- The round trips in append order: the final response with the final body,
then the earlier hops with a nil body. -/
def appendOrder (resp : HttpResponse) (body : Bytes) : List RoundTrip :=
  match backward resp with
  | [] => []
  | r :: rs => hopRoundTrip body r :: rs.map (hopRoundTrip none)

/-! ## Data model of `generate.go` -/

/-- TCPConnectMeasurement is a TCP connect measurement; an empty `Failure`
means no error. -/
structure TCPConnectMeasurement where
  Failure : String
deriving DecidableEq, Repr

/-- TLSHandshakeMeasurement is a TLS handshake measurement; an empty `Failure`
means no error. -/
structure TLSHandshakeMeasurement where
  Failure : String
deriving DecidableEq, Repr

/-- HTTPEndpointMeasurement is a measurement of a specific HTTP endpoint. The
two measurements are pointers: `none` is nil. -/
structure HTTPEndpointMeasurement where
  Endpoint : String
  TCPConnectMeasurement : Option TCPConnectMeasurement
  TLSHandshakeMeasurement : Option TLSHandshakeMeasurement
deriving DecidableEq, Repr

/-- DNSMeasurement is a DNS measurement. -/
structure DNSMeasurement where
  Domain : String
  Addrs : List String
deriving DecidableEq, Repr

/-- URLMeasurement is a measurement of a given URL. `DNS` is a pointer (`none`
is nil) and `RoundTrip` is the round trip the measurement points to. -/
structure URLMeasurement where
  URL : String
  DNS : Option DNSMeasurement
  RoundTrip : RoundTrip
  Endpoints : List HTTPEndpointMeasurement

/-- The network as `Generate` sees it. `LookupHost k host` is the outcome of
the call `net.LookupHost(host)` made for the round trip at index `k`;
`Dial k j endpoint` is the error of `net.Dial("tcp", endpoint)` for the address
at index `j` of that round trip (`none` when the connect succeeds);
`Handshake k j endpoint serverName` is the error of the TLS handshake over that
connection (`none` when it succeeds). -/
structure Network where
  LookupHost : Nat → String → Except GoError (List String)
  Dial : Nat → Nat → String → Option GoError
  Handshake : Nat → Nat → String → String → Option GoError

/-- How a Go function call ends: it returns a value, or it panics. -/
inductive Outcome (α : Type) where
  | returned : α → Outcome α
  | panicked : String → Outcome α

/-- Go's `net.JoinHostPort`: a host containing a colon is put in brackets. -/
def JoinHostPort (host port : String) : String :=
  if ':' ∈ host.toList then "[" ++ host ++ "]:" ++ port else host ++ ":" ++ port

/-- The scheme switch of `Generate`: the endpoint for `addr`, or `none` in the
`default` branch (which panics). -/
def Generate.endpoint (scheme addr : String) : Option String :=
  if scheme = "http" then some (JoinHostPort addr "80")
  else if scheme = "https" then some (JoinHostPort addr "443")
  else none

/-- The body of the loop of `Generate` over the resolved addresses, for the
address `addr` at index `j` of the round trip at index `k`: the finished
`currentEndpoint`, or the panic of the scheme switch. -/
def Generate.probe (net : Network) (k j : Nat) (u : URL) (addr : String) :
    Outcome HTTPEndpointMeasurement :=
  match Generate.endpoint u.Scheme addr with
  | none => .panicked "should not happen"
  | some endpoint =>
    match net.Dial k j endpoint with
    | some err =>
      .returned { Endpoint := endpoint,
                  TCPConnectMeasurement := some { Failure := err.Error },
                  TLSHandshakeMeasurement := none }
    | none =>
      if u.Scheme = "https" then
        match net.Handshake k j endpoint u.Hostname with
        | some err =>
          .returned { Endpoint := endpoint,
                      TCPConnectMeasurement := some { Failure := "" },
                      TLSHandshakeMeasurement := some { Failure := err.Error } }
        | none =>
          .returned { Endpoint := endpoint,
                      TCPConnectMeasurement := some { Failure := "" },
                      TLSHandshakeMeasurement := some { Failure := "" } }
      else
        .returned { Endpoint := endpoint,
                    TCPConnectMeasurement := some { Failure := "" },
                    TLSHandshakeMeasurement := none }

/-- The loop `for _, addr := range addrs` of `Generate`: the endpoints appended
to `currentURL.Endpoints`, starting at address index `j`. -/
def Generate.endpoints (net : Network) (k : Nat) (u : URL) :
    Nat → List String → List HTTPEndpointMeasurement → Outcome (List HTTPEndpointMeasurement)
  | _, [], eps => .returned eps
  | j, addr :: addrs, eps =>
    match Generate.probe net k j u addr with
    | .panicked msg => .panicked msg
    | .returned ep => Generate.endpoints net k u (j + 1) addrs (eps ++ [ep])

/-- The body of the loop `for _, rt := range rts` of `Generate` for the round
trip `rt` at index `k`: the lookup error, or the finished `currentURL`, or a
panic (a nil `rt.Request` or `rt.Request.URL`, or the scheme switch). -/
def Generate.currentURL (net : Network) (k : Nat) (rt : RoundTrip) :
    Outcome (Except GoError URLMeasurement) :=
  match rt.Request.URL with
  | none => .panicked "invalid memory address or nil pointer dereference"
  | some u =>
    match net.LookupHost k u.Hostname with
    | .error err => .returned (.error err)
    | .ok addrs =>
      match Generate.endpoints net k u 0 addrs [] with
      | .panicked msg => .panicked msg
      | .returned eps =>
        .returned (.ok { URL := u.String,
                         DNS := some { Domain := u.Hostname, Addrs := addrs },
                         RoundTrip := rt,
                         Endpoints := eps })

/-- The loop `for _, rt := range rts` of `Generate`, starting at round trip
index `k` with the measurements `out` built so far. The result is the pair
returned by `Generate` (a nil list is `[]`, a nil error is `none`): a lookup
error returns `nil, err`. -/
def Generate.loop (net : Network) :
    Nat → List RoundTrip → List URLMeasurement → Outcome (List URLMeasurement × Option GoError)
  | _, [], out => .returned (out, none)
  | k, rt :: rts, out =>
    match Generate.currentURL net k rt with
    | .panicked msg => .panicked msg
    | .returned (.error err) => .returned ([], some err)
    | .returned (.ok m) => Generate.loop net (k + 1) rts (out ++ [m])

/-- The function `Generate` of generate.go. -/
def Generate (net : Network) (rts : List RoundTrip) :
    Outcome (List URLMeasurement × Option GoError) :=
  Generate.loop net 0 rts []

/-! ## Concrete inputs -/

/-- A `long` parameter that performs no swap. -/
def noSwaps : (v : List RoundTrip) → List (Fin v.length × Fin v.length) :=
  fun _ => []

/-- The origin request of the sample chains: `GET http://example.test/`. -/
def originRequest : HttpRequest :=
  .mk "GET" (some ⟨"http", "example.test", "http://example.test/"⟩) .nil

/-- A chain of one hop: the origin request answered with 200. -/
def chainOne : HttpResponse := .mk 200 originRequest

/-- A chain of two hops: a 301 from `http://example.test/` to
`https://example.test/`, answered with 200. -/
def chainTwo : HttpResponse :=
  .mk 200 (.mk "GET" (some ⟨"https", "example.test", "https://example.test/"⟩)
    (.mk 301 originRequest))

/-- A chain of three hops: 301, 302, then 200 from `https://www.example.test/`. -/
def chainThree : HttpResponse :=
  .mk 200 (.mk "GET" (some ⟨"https", "www.example.test", "https://www.example.test/"⟩)
    (.mk 302 (.mk "GET" (some ⟨"https", "example.test", "https://example.test/"⟩)
      (.mk 301 originRequest))))

/-- The status code of a response (0 on nil), used to read off sample results. -/
def HttpResponse.StatusCode : HttpResponse → Nat
  | .nil => 0
  | .mk st _ => st

/-- A sample final body. -/
def sampleBody : Bytes := some [104, 105]

/-- A round trip for `http://example.test/`. -/
def httpRoundTrip : RoundTrip :=
  { Request := originRequest, Response := chainOne, Body := none, sortIndex := 0 }

/-- A round trip for `https://example.test/`. -/
def httpsRoundTrip : RoundTrip :=
  { Request := .mk "GET" (some ⟨"https", "example.test", "https://example.test/"⟩) .nil,
    Response := .nil, Body := sampleBody, sortIndex := 0 }

/-- A round trip whose scheme is neither http nor https. -/
def ftpRoundTrip : RoundTrip :=
  { Request := .mk "GET" (some ⟨"ftp", "example.test", "ftp://example.test/"⟩) .nil,
    Response := .nil, Body := none, sortIndex := 0 }

/-- A network where every lookup returns two addresses, the connect to the
first succeeds and the connect to the second fails, and handshakes succeed. -/
def twoAddressNetwork : Network :=
  { LookupHost := fun _ _ => .ok ["93.184.216.34", "2001:db8::1"],
    Dial := fun _ j _ => if j = 0 then none else some ⟨"dial tcp: connect: network is unreachable"⟩,
    Handshake := fun _ _ _ _ => none }

/-- The same lookups as `twoAddressNetwork`, but every connect succeeds and
every handshake fails. -/
def handshakeFailsNetwork : Network :=
  { LookupHost := fun _ _ => .ok ["93.184.216.34", "2001:db8::1"],
    Dial := fun _ _ _ => none,
    Handshake := fun _ _ _ _ => some ⟨"remote error: tls: handshake failure"⟩ }

/-- A network where the first lookup succeeds and every later lookup fails. -/
def secondLookupFailsNetwork : Network :=
  { LookupHost := fun k _ =>
      if k = 0 then .ok ["93.184.216.34"] else .error ⟨"lookup example.test: no such host"⟩,
    Dial := fun _ _ _ => none,
    Handshake := fun _ _ _ _ => none }

/-- A network where every lookup fails. -/
def noSuchHostNetwork : Network :=
  { LookupHost := fun _ _ => .error ⟨"lookup example.test: no such host"⟩,
    Dial := fun _ _ _ => none,
    Handshake := fun _ _ _ _ => none }

/-- A network where every lookup returns no address and no error. -/
def emptyLookupNetwork : Network :=
  { LookupHost := fun _ _ => .ok [],
    Dial := fun _ _ _ => none,
    Handshake := fun _ _ _ _ => none }

/-! ## Lemmas on the redirect chain, the sort and `rearrange` -/

theorem backward_unfold (resp : HttpResponse) :
    backward resp = if resp.hasHop = true then resp :: backward resp.Request.Response else [] := by
  cases resp with
  | nil => simp [backward, HttpResponse.hasHop]
  | mk st req =>
    cases req with
    | nil => simp [backward, backward.step, HttpResponse.hasHop]
    | mk m u prev =>
      simp [backward, backward.step, HttpResponse.hasHop, HttpResponse.Request, HttpRequest.Response]

theorem loop_unfold (index : Int) (resp : HttpResponse) (body : Bytes) (out : List RoundTrip) :
    rearrange.loop index resp body out =
      if resp.hasHop = true then
        rearrange.loop index resp.Request.Response none
          (out ++ [{ sortIndex := index, Request := resp.Request, Response := resp, Body := body }])
      else out := by
  cases resp with
  | nil => simp [rearrange.loop, HttpResponse.hasHop]
  | mk st req =>
    cases req with
    | nil => simp [rearrange.loop, rearrange.body, HttpResponse.hasHop]
    | mk m u prev =>
      simp [rearrange.loop, rearrange.body, HttpResponse.hasHop, HttpResponse.Request,
        HttpRequest.Response]

theorem loop_eq_aux (n : Nat) : ∀ (resp : HttpResponse) (body : Bytes) (out : List RoundTrip),
    hops resp = n →
    rearrange.loop 0 resp body out =
      out ++ (match backward resp with
        | [] => []
        | r :: rs => hopRoundTrip body r :: rs.map (hopRoundTrip none)) := by
  induction n with
  | zero =>
    intro resp body out h
    rw [loop_unfold]
    unfold hops at h
    rw [backward_unfold] at h ⊢
    by_cases hh : resp.hasHop = true
    · simp [hh] at h
    · simp [hh]
  | succ n ih =>
    intro resp body out h
    rw [loop_unfold]
    unfold hops at h
    rw [backward_unfold] at h ⊢
    by_cases hh : resp.hasHop = true
    · simp only [hh, if_true, List.length_cons, Nat.add_right_cancel_iff] at h ⊢
      rw [ih _ _ _ h]
      cases hb : backward resp.Request.Response with
      | nil => simp [hopRoundTrip]
      | cons r rs => simp [hopRoundTrip]
    · simp [hh] at h

theorem loop_eq (resp : HttpResponse) (body : Bytes) :
    rearrange.loop 0 resp body [] = appendOrder resp body := by
  rw [loop_eq_aux (hops resp) resp body [] rfl]
  simp [appendOrder]

theorem swap_adjacent (pre post : List RoundTrip) (x y : RoundTrip) :
    sortHelper.Swap (pre ++ y :: x :: post) (pre.length + 1) pre.length = pre ++ x :: y :: post := by
  induction pre with
  | nil => simp [sortHelper.Swap]
  | cons p pre ih =>
    simp only [sortHelper.Swap] at ih ⊢
    simpa using ih

theorem less_of_const (c : Int) (v : List RoundTrip) (h : ∀ a ∈ v, a.sortIndex = c)
    (i j : Nat) (hi : i < v.length) (hj : j < v.length) : sortHelper.Less v i j = true := by
  have hi' : (v.getD i default) ∈ v := by
    rw [List.getD_eq_getElem _ _ hi]; exact List.getElem_mem hi
  have hj' : (v.getD j default) ∈ v := by
    rw [List.getD_eq_getElem _ _ hj]; exact List.getElem_mem hj
  simp only [sortHelper.Less, h _ hi', h _ hj']
  simp

theorem inner_front (c : Int) (j : Nat) : ∀ (pre post : List RoundTrip) (x : RoundTrip),
    pre.length = j → (∀ a ∈ pre ++ x :: post, a.sortIndex = c) →
    insertionSort.inner sortHelper 0 j (pre ++ x :: post) = x :: pre ++ post := by
  induction j with
  | zero =>
    intro pre post x hlen _
    have : pre = [] := List.eq_nil_of_length_eq_zero hlen
    subst this
    simp [insertionSort.inner]
  | succ j ih =>
    intro pre post x hlen hc
    obtain ⟨pre', y, rfl⟩ : ∃ pre' y, pre = pre' ++ [y] := by
      rcases List.eq_nil_or_concat pre with h | ⟨l, b, h⟩
      · subst h; simp at hlen
      · exact ⟨l, b, by simpa using h⟩
    have hl : pre'.length = j := by simpa using hlen
    have hless : sortHelper.Less (pre' ++ [y] ++ x :: post) (j + 1) j = true :=
      less_of_const c _ hc _ _ (by simp; omega) (by simp; omega)
    have hsw : sortHelper.Swap (pre' ++ [y] ++ x :: post) (j + 1) j = pre' ++ x :: y :: post := by
      have := swap_adjacent pre' post x y
      rw [hl] at this
      simpa using this
    rw [insertionSort.inner]
    simp only [sortHelper] at hless hsw ⊢
    rw [if_pos ⟨Nat.succ_pos j, hless⟩, hsw]
    have := ih pre' (y :: post) x hl (by
      intro a ha
      apply hc
      simp only [List.mem_append, List.mem_cons, List.mem_singleton, List.not_mem_nil, or_false] at ha ⊢
      tauto)
    simp only [sortHelper] at this
    rw [this]
    simp

theorem outer_reverse (c : Int) (n : Nat) : ∀ (i : Nat) (d r : List RoundTrip),
    d.length = i → r.length = n → (∀ a ∈ d ++ r, a.sortIndex = c) →
    insertionSort.outer sortHelper 0 n i (d ++ r) = r.reverse ++ d := by
  induction n with
  | zero =>
    intro i d r _ hr _
    have : r = [] := List.eq_nil_of_length_eq_zero hr
    subst this
    simp [insertionSort.outer]
  | succ n ih =>
    intro i d r hd hr hc
    cases r with
    | nil => simp at hr
    | cons x r =>
      rw [insertionSort.outer, inner_front c i d r x hd hc]
      have := ih (i + 1) (x :: d) r (by simp [hd]) (by simpa using hr) (by
        intro a ha
        apply hc
        simp only [List.mem_append, List.mem_cons] at ha ⊢
        tauto)
      rw [List.cons_append] at this ⊢
      rw [this]
      simp

theorem insertionSort_reverse (c : Int) (v : List RoundTrip) (h : ∀ a ∈ v, a.sortIndex = c) :
    insertionSort sortHelper 0 v.length v = v.reverse := by
  cases v with
  | nil => simp [insertionSort, insertionSort.outer]
  | cons x r =>
    have := outer_reverse c r.length 1 [x] r rfl rfl (by simpa using h)
    simpa [insertionSort] using this

theorem swap_length (v : List RoundTrip) (i j : Nat) : (sortHelper.Swap v i j).length = v.length := by
  simp [sortHelper.Swap]

theorem getD_cons_set_perm (d x : RoundTrip) : ∀ (t : List RoundTrip) (j : Nat), j < t.length →
    (t.getD j d :: t.set j x).Perm (x :: t)
  | [], _, h => by simp at h
  | y :: t, 0, _ => by simpa using List.Perm.swap x y t
  | y :: t, j + 1, h => by
    have ih := getD_cons_set_perm d x t j (by simpa using h)
    have h1 : (t.getD j d :: y :: t.set j x).Perm (y :: t.getD j d :: t.set j x) :=
      List.Perm.swap _ _ _
    have h2 : (y :: t.getD j d :: t.set j x).Perm (y :: x :: t) := ih.cons y
    have h3 : (y :: x :: t).Perm (x :: y :: t) := List.Perm.swap _ _ _
    simpa using (h1.trans h2).trans h3

theorem swap_perm : ∀ (v : List RoundTrip) (i j : Nat), i < v.length → j < v.length →
    (sortHelper.Swap v i j).Perm v
  | [], _, _, h, _ => by simp at h
  | x :: t, 0, 0, _, _ => by simp [sortHelper.Swap]
  | x :: t, 0, j + 1, _, hj => by
    have := getD_cons_set_perm default x t j (by simpa using hj)
    simpa [sortHelper.Swap] using this
  | x :: t, i + 1, 0, hi, _ => by
    have := getD_cons_set_perm default x t i (by simpa using hi)
    simpa [sortHelper.Swap] using this
  | x :: t, i + 1, j + 1, hi, hj => by
    have := swap_perm t i j (by simpa using hi) (by simpa using hj)
    simpa [sortHelper.Swap] using this

theorem foldl_swap_perm (n : Nat) (ps : List (Fin n × Fin n)) : ∀ (v : List RoundTrip),
    v.length = n →
    (ps.foldl (fun s p => sortHelper.Swap s p.1.val p.2.val) v).Perm v := by
  induction ps with
  | nil => intro v _; simp
  | cons p ps ih =>
    intro v hv
    simp only [List.foldl_cons]
    have h1 := swap_perm v p.1.val p.2.val (by omega) (by omega)
    exact (ih _ (by rw [swap_length]; exact hv)).trans h1

theorem insertionSort_perm (c : Int) (v : List RoundTrip) (h : ∀ a ∈ v, a.sortIndex = c) :
    (insertionSort sortHelper 0 v.length v).Perm v := by
  rw [insertionSort_reverse c v h]
  exact List.reverse_perm v

theorem sortSort_perm (long : (v : List RoundTrip) → List (Fin v.length × Fin v.length))
    (c : Int) (v : List RoundTrip) (h : ∀ a ∈ v, a.sortIndex = c) :
    (sortSort long v).Perm v := by
  unfold sortSort
  simp only [sortHelper.Len]
  split
  · exact List.Perm.refl v
  · split
    · exact insertionSort_perm c v h
    · exact foldl_swap_perm v.length (long v) v rfl

theorem sortSort_short (long : (v : List RoundTrip) → List (Fin v.length × Fin v.length))
    (c : Int) (v : List RoundTrip) (h : ∀ a ∈ v, a.sortIndex = c) (hlen : v.length ≤ 12) :
    sortSort long v = v.reverse := by
  unfold sortSort
  simp only [sortHelper.Len]
  split
  · rename_i h1
    match v, h1 with
    | [], _ => rfl
    | [x], _ => rfl
    | _ :: _ :: _, h1 => simp at h1
  · exact insertionSort_reverse c v h

theorem appendOrder_sortIndex (resp : HttpResponse) (body : Bytes) :
    ∀ a ∈ appendOrder resp body, a.sortIndex = 0 := by
  intro a ha
  unfold appendOrder at ha
  split at ha
  · simp at ha
  · simp only [List.mem_cons, List.mem_map] at ha
    rcases ha with rfl | ⟨r, _, rfl⟩ <;> rfl

theorem appendOrder_length (resp : HttpResponse) (body : Bytes) :
    (appendOrder resp body).length = hops resp := by
  unfold appendOrder hops
  split <;> rename_i h <;> simp [h]

theorem rearrange_perm (long : (v : List RoundTrip) → List (Fin v.length × Fin v.length))
    (resp : HttpResponse) (body : Bytes) :
    (rearrange long resp body).Perm (appendOrder resp body) := by
  unfold rearrange
  simp only [loop_eq]
  exact sortSort_perm long 0 _ (appendOrder_sortIndex resp body)

theorem rearrange_short (long : (v : List RoundTrip) → List (Fin v.length × Fin v.length))
    (resp : HttpResponse) (body : Bytes) (h : hops resp ≤ 12) :
    rearrange long resp body = (appendOrder resp body).reverse := by
  unfold rearrange
  simp only [loop_eq]
  exact sortSort_short long 0 _ (appendOrder_sortIndex resp body)
    (by rw [appendOrder_length]; exact h)

theorem backward_hasHop (n : Nat) : ∀ (resp : HttpResponse), hops resp = n →
    ∀ r ∈ backward resp, r.hasHop = true := by
  induction n with
  | zero =>
    intro resp h r hr
    unfold hops at h
    rw [List.eq_nil_of_length_eq_zero h] at hr
    simp at hr
  | succ n ih =>
    intro resp h r hr
    unfold hops at h
    rw [backward_unfold] at h hr
    by_cases hh : resp.hasHop = true
    · simp only [hh, if_true, List.length_cons, Nat.add_right_cancel_iff, List.mem_cons] at h hr
      rcases hr with rfl | hr
      · exact hh
      · exact ih _ h r hr
    · simp [hh] at h

theorem appendOrder_get (resp : HttpResponse) (body : Bytes) (i : Nat) :
    (appendOrder resp body)[i]? =
      (backward resp)[i]?.map (hopRoundTrip (if i = 0 then body else none)) := by
  unfold appendOrder
  cases hb : backward resp with
  | nil => simp
  | cons r rs =>
    cases i with
    | zero => simp
    | succ i => simp

theorem sizeOf_prev_lt (resp : HttpResponse) (h : resp.hasHop = true) :
    sizeOf resp.Request.Response < sizeOf resp := by
  cases resp with
  | nil => simp [HttpResponse.hasHop] at h
  | mk st req =>
    cases req with
    | nil => simp [HttpResponse.hasHop] at h
    | mk m u prev =>
      simp only [HttpResponse.Request, HttpRequest.Response, HttpResponse.mk.sizeOf_spec,
        HttpRequest.mk.sizeOf_spec]
      omega

theorem backward_sizeOf (n : Nat) : ∀ (resp : HttpResponse), hops resp = n →
    ∀ r ∈ backward resp, sizeOf r ≤ sizeOf resp := by
  induction n with
  | zero =>
    intro resp h r hr
    unfold hops at h
    rw [List.eq_nil_of_length_eq_zero h] at hr
    simp at hr
  | succ n ih =>
    intro resp h r hr
    unfold hops at h
    rw [backward_unfold] at h hr
    by_cases hh : resp.hasHop = true
    · simp only [hh, if_true, List.length_cons, Nat.add_right_cancel_iff, List.mem_cons] at h hr
      rcases hr with rfl | hr
      · exact Nat.le_refl _
      · have := ih _ h r hr
        have := sizeOf_prev_lt resp hh
        omega
    · simp [hh] at h

theorem backward_tail_ne (resp r : HttpResponse) (hh : resp.hasHop = true)
    (hr : r ∈ backward resp.Request.Response) : r ≠ resp := by
  intro he
  have h1 := backward_sizeOf _ _ rfl r hr
  have h2 := sizeOf_prev_lt resp hh
  rw [he] at h1
  omega

theorem appendOrder_unfold (resp : HttpResponse) (body : Bytes) :
    appendOrder resp body =
      if resp.hasHop = true then
        hopRoundTrip body resp :: (backward resp.Request.Response).map (hopRoundTrip none)
      else [] := by
  unfold appendOrder
  rw [backward_unfold]
  by_cases hh : resp.hasHop = true <;> simp [hh]

theorem appendOrder_responses (resp : HttpResponse) (body : Bytes) :
    (appendOrder resp body).map RoundTrip.Response = backward resp := by
  unfold appendOrder
  cases hb : backward resp with
  | nil => rfl
  | cons r rs => simp [hopRoundTrip, Function.comp_def]

/-- C2: for every final response and body, rearrange returns exactly one round trip per hop
of the chain (N round trips whose responses are a permutation of the chain's responses), each
pairing a response with its own non-nil request; the round trip built from the final response
holds the final body and every other round trip has a nil Body; for N = 1 the result is the
single round trip of the original request, the response and its body. -/
theorem rearrange_one_per_hop
    (long : (v : List RoundTrip) → List (Fin v.length × Fin v.length))
    (resp : HttpResponse) (body : Bytes) :
    (rearrange long resp body).length = hops resp ∧
    ((rearrange long resp body).map RoundTrip.Response).Perm (backward resp) ∧
    (∀ rt ∈ rearrange long resp body,
      rt.Request = rt.Response.Request ∧ rt.Response.hasHop = true ∧
      (rt.Response = resp → rt.Body = body) ∧ (rt.Response ≠ resp → rt.Body = none)) ∧
    (1 ≤ hops resp → ∃ rt ∈ rearrange long resp body, rt.Response = resp ∧ rt.Body = body) ∧
    (hops resp = 1 → rearrange long resp body =
      [{ Request := resp.Request, Response := resp, Body := body, sortIndex := 0 }]) := by
  have hp := rearrange_perm long resp body
  refine ⟨?_, ?_, ?_, ?_, ?_⟩
  · rw [hp.length_eq, appendOrder_length]
  · rw [← appendOrder_responses resp body]
    exact hp.map _
  · intro rt hrt
    have hmem := hp.mem_iff.mp hrt
    rw [appendOrder_unfold] at hmem
    by_cases hh : resp.hasHop = true
    · simp only [hh, if_true, List.mem_cons, List.mem_map] at hmem
      rcases hmem with rfl | ⟨r, hr, rfl⟩
      · exact ⟨rfl, hh, fun _ => rfl, fun hne => absurd rfl hne⟩
      · refine ⟨rfl, backward_hasHop _ _ rfl r hr, ?_, fun _ => rfl⟩
        intro he
        exact absurd he (backward_tail_ne resp r hh hr)
    · simp [hh] at hmem
  · intro h1
    refine ⟨hopRoundTrip body resp, ?_, rfl, rfl⟩
    apply hp.mem_iff.mpr
    rw [appendOrder_unfold]
    by_cases hh : resp.hasHop = true
    · simp [hh]
    · unfold hops at h1
      rw [backward_unfold] at h1
      simp [hh] at h1
  · intro h1
    have hl : hops resp.Request.Response = 0 ∧ resp.hasHop = true := by
      unfold hops at h1 ⊢
      rw [backward_unfold] at h1
      by_cases hh : resp.hasHop = true
      · simpa [hh] using h1
      · simp [hh] at h1
    have ha : appendOrder resp body = [hopRoundTrip body resp] := by
      rw [appendOrder_unfold]
      unfold hops at hl
      simp [hl.2, List.eq_nil_of_length_eq_zero hl.1]
    rw [ha] at hp
    simpa [hopRoundTrip] using List.perm_singleton.mp hp

/-- C10 (amended): for a chain of at most 12 hops every collected round trip has sortIndex 0,
Less is true for every pair of entries (no entry compares as equal to another), the collected
list is in reverse chronological order, and sort.Sort reverses it: rearrange returns the
reverse of the append order, which is the append order itself only for chains of at most one
hop. -/
theorem rearrange_reverses_append_order
    (long : (v : List RoundTrip) → List (Fin v.length × Fin v.length))
    (resp : HttpResponse) (body : Bytes) (h12 : hops resp ≤ 12) :
    (∀ rt ∈ rearrange.loop 0 resp body [], rt.sortIndex = 0) ∧
    (∀ i j, i < hops resp → j < hops resp →
      sortHelper.Less (rearrange.loop 0 resp body []) i j = true) ∧
    (rearrange.loop 0 resp body []).map RoundTrip.Response = backward resp ∧
    rearrange long resp body = (rearrange.loop 0 resp body []).reverse ∧
    (rearrange long resp body = rearrange.loop 0 resp body [] ↔ hops resp ≤ 1) := by
  rw [loop_eq]
  refine ⟨appendOrder_sortIndex resp body, ?_, appendOrder_responses resp body,
    rearrange_short long resp body h12, ?_⟩
  · intro i j hi hj
    exact less_of_const 0 _ (appendOrder_sortIndex resp body) i j
      (by rw [appendOrder_length]; exact hi) (by rw [appendOrder_length]; exact hj)
  · rw [rearrange_short long resp body h12]
    constructor
    · intro hrev
      by_contra hgt
      have hn : 2 ≤ hops resp := by omega
      have h0 := congrArg (fun l => l[0]?) hrev
      simp only at h0
      rw [List.getElem?_reverse (by rw [appendOrder_length]; omega), appendOrder_length,
        appendOrder_get, appendOrder_get] at h0
      have hh : resp.hasHop = true := by
        by_contra hh
        unfold hops at hn
        rw [backward_unfold] at hn
        simp [hh] at hn
      have hb : backward resp = resp :: backward resp.Request.Response := by
        rw [backward_unfold]; simp [hh]
      have hlast : (backward resp)[hops resp - 1 - 0]? =
          (backward resp.Request.Response)[hops resp - 2]? := by
        rw [hb]
        have : hops resp - 1 - 0 = (hops resp - 2) + 1 := by omega
        rw [this, List.getElem?_cons_succ]
      have hlt : hops resp - 2 < (backward resp.Request.Response).length := by
        unfold hops at hn ⊢
        rw [hb] at hn ⊢
        simp only [List.length_cons] at hn ⊢
        omega
      rw [hlast, List.getElem?_eq_getElem hlt] at h0
      rw [hb] at h0
      simp only [List.getElem?_cons_zero, Option.map_some', Option.some.injEq] at h0
      have h1 := congrArg RoundTrip.Response h0
      simp only [hopRoundTrip] at h1
      exact backward_tail_ne resp _ hh (List.getElem_mem hlt) h1
    · intro hle
      have hl : (appendOrder resp body).length ≤ 1 := by rw [appendOrder_length]; exact hle
      match appendOrder resp body, hl with
      | [], _ => rfl
      | [_], _ => rfl
      | _ :: _ :: _, hl => simp at hl

/-! ## Lemmas on `Generate` -/

theorem endpoints_returned (net : Network) (k : Nat) (u : URL) (addrs : List String) :
    ∀ (j : Nat) (eps res : List HTTPEndpointMeasurement),
    Generate.endpoints net k u j addrs eps = .returned res →
    ∃ l, res = eps ++ l ∧ l.length = addrs.length ∧
      ∀ i addr ep, addrs[i]? = some addr → l[i]? = some ep →
        Generate.probe net k (j + i) u addr = .returned ep := by
  induction addrs with
  | nil =>
    intro j eps res h
    simp only [Generate.endpoints, Outcome.returned.injEq] at h
    exact ⟨[], by simp [h], rfl, by simp⟩
  | cons a addrs ih =>
    intro j eps res h
    rw [Generate.endpoints] at h
    cases hp : Generate.probe net k j u a with
    | panicked msg => simp [hp] at h
    | returned ep0 =>
      simp only [hp] at h
      obtain ⟨l, hl, hlen, hall⟩ := ih (j + 1) (eps ++ [ep0]) res h
      refine ⟨ep0 :: l, by simp [hl], by simp [hlen], ?_⟩
      intro i addr ep hi he
      cases i with
      | zero =>
        simp only [List.getElem?_cons_zero, Option.some.injEq] at hi he
        subst hi; subst he
        simpa using hp
      | succ i =>
        simp only [List.getElem?_cons_succ] at hi he
        have := hall i addr ep hi he
        rwa [Nat.add_assoc, Nat.add_comm 1 i] at this

theorem endpoints_total (net : Network) (k : Nat) (u : URL) (addrs : List String) :
    ∀ (j : Nat) (eps : List HTTPEndpointMeasurement),
    (∀ i addr, addrs[i]? = some addr → ∃ ep, Generate.probe net k (j + i) u addr = .returned ep) →
    ∃ res, Generate.endpoints net k u j addrs eps = .returned res := by
  induction addrs with
  | nil => intro j eps _; exact ⟨eps, rfl⟩
  | cons a addrs ih =>
    intro j eps h
    obtain ⟨ep0, hp⟩ := h 0 a (by simp)
    rw [Generate.endpoints]
    simp only [Nat.add_zero] at hp
    simp only [hp]
    apply ih
    intro i addr hi
    have := h (i + 1) addr (by simpa using hi)
    rwa [Nat.add_assoc, Nat.add_comm 1 i]

theorem endpoints_panicked (net : Network) (k : Nat) (u : URL)
    (hu : ∀ addr, Generate.endpoint u.Scheme addr = none) (a : String) (addrs : List String)
    (j : Nat) (eps : List HTTPEndpointMeasurement) :
    Generate.endpoints net k u j (a :: addrs) eps = .panicked "should not happen" := by
  rw [Generate.endpoints]
  simp [Generate.probe, hu]

theorem endpoint_supported (scheme : String) (h : scheme = "http" ∨ scheme = "https")
    (addr : String) :
    Generate.endpoint scheme addr =
      some (JoinHostPort addr (if scheme = "http" then "80" else "443")) := by
  rcases h with rfl | rfl
  · simp [Generate.endpoint]
  · simp [Generate.endpoint]

theorem probe_supported (net : Network) (k j : Nat) (u : URL)
    (h : u.Scheme = "http" ∨ u.Scheme = "https") (addr : String) :
    ∃ ep, Generate.probe net k j u addr = .returned ep := by
  unfold Generate.probe
  rw [endpoint_supported _ h]
  simp only
  split
  · exact ⟨_, rfl⟩
  · split
    · split <;> exact ⟨_, rfl⟩
    · exact ⟨_, rfl⟩

theorem endpoints_supported (net : Network) (k : Nat) (u : URL)
    (h : u.Scheme = "http" ∨ u.Scheme = "https") (addrs : List String) :
    ∃ res, Generate.endpoints net k u 0 addrs [] = .returned res :=
  endpoints_total net k u addrs 0 [] (fun _ addr _ => probe_supported net k _ u h addr)

theorem loop_returned (net : Network) (rts : List RoundTrip) :
    ∀ (k : Nat) (out res : List URLMeasurement),
    Generate.loop net k rts out = .returned (res, none) →
    ∃ ms, res = out ++ ms ∧ ms.length = rts.length ∧
      ∀ i rt m, rts[i]? = some rt → ms[i]? = some m →
        Generate.currentURL net (k + i) rt = .returned (.ok m) := by
  induction rts with
  | nil =>
    intro k out res h
    simp only [Generate.loop, Outcome.returned.injEq, Prod.mk.injEq, and_true] at h
    exact ⟨[], by simp [h], rfl, by simp⟩
  | cons rt rts ih =>
    intro k out res h
    rw [Generate.loop] at h
    cases hc : Generate.currentURL net k rt with
    | panicked msg => simp [hc] at h
    | returned r =>
      cases r with
      | error e => simp [hc] at h
      | ok m0 =>
        simp only [hc] at h
        obtain ⟨ms, hms, hlen, hall⟩ := ih (k + 1) (out ++ [m0]) res h
        refine ⟨m0 :: ms, by simp [hms], by simp [hlen], ?_⟩
        intro i rt' m hi hm
        cases i with
        | zero =>
          simp only [List.getElem?_cons_zero, Option.some.injEq] at hi hm
          subst hi; subst hm
          simpa using hc
        | succ i =>
          simp only [List.getElem?_cons_succ] at hi hm
          have := hall i rt' m hi hm
          rwa [Nat.add_assoc, Nat.add_comm 1 i] at this

theorem loop_append (net : Network) (pre : List RoundTrip) :
    ∀ (k : Nat),
    (∀ i rt, pre[i]? = some rt → ∃ m, Generate.currentURL net (k + i) rt = .returned (.ok m)) →
    ∃ ms : List URLMeasurement, ms.length = pre.length ∧
      (∀ i rt m, pre[i]? = some rt → ms[i]? = some m →
        Generate.currentURL net (k + i) rt = .returned (.ok m)) ∧
      ∀ rest out, Generate.loop net k (pre ++ rest) out =
        Generate.loop net (k + pre.length) rest (out ++ ms) := by
  induction pre with
  | nil => intro k _; exact ⟨[], rfl, by simp, by simp⟩
  | cons rt pre ih =>
    intro k h
    obtain ⟨m0, hm0⟩ := h 0 rt (by simp)
    simp only [Nat.add_zero] at hm0
    obtain ⟨ms, hlen, hall, hloop⟩ := ih (k + 1) (by
      intro i rt' hi
      have := h (i + 1) rt' (by simpa using hi)
      rwa [Nat.add_assoc, Nat.add_comm 1 i])
    refine ⟨m0 :: ms, by simp [hlen], ?_, ?_⟩
    · intro i rt' m hi hm
      cases i with
      | zero =>
        simp only [List.getElem?_cons_zero, Option.some.injEq] at hi hm
        subst hi; subst hm
        simpa using hm0
      | succ i =>
        simp only [List.getElem?_cons_succ] at hi hm
        have := hall i rt' m hi hm
        rwa [Nat.add_assoc, Nat.add_comm 1 i] at this
    · intro rest out
      rw [List.cons_append, Generate.loop]
      simp only [hm0]
      rw [hloop]
      simp [Nat.add_assoc, Nat.add_comm 1]

theorem currentURL_ok (net : Network) (k : Nat) (rt : RoundTrip) (m : URLMeasurement)
    (h : Generate.currentURL net k rt = .returned (.ok m)) :
    ∃ u addrs, rt.Request.URL = some u ∧ net.LookupHost k u.Hostname = .ok addrs ∧
      m.URL = u.String ∧ m.DNS = some { Domain := u.Hostname, Addrs := addrs } ∧
      m.RoundTrip = rt ∧ m.Endpoints.length = addrs.length ∧
      ∀ j addr ep, addrs[j]? = some addr → m.Endpoints[j]? = some ep →
        Generate.probe net k j u addr = .returned ep := by
  unfold Generate.currentURL at h
  cases hu : rt.Request.URL with
  | none => simp [hu] at h
  | some u =>
    simp only [hu] at h
    cases hl : net.LookupHost k u.Hostname with
    | error e => simp [hl] at h
    | ok addrs =>
      simp only [hl] at h
      cases he : Generate.endpoints net k u 0 addrs [] with
      | panicked msg => simp [he] at h
      | returned eps =>
        simp only [he, Outcome.returned.injEq, Except.ok.injEq] at h
        obtain ⟨l, hl', hlen, hall⟩ := endpoints_returned net k u addrs 0 [] eps he
        simp only [List.nil_append] at hl'
        subst hl'
        subst h
        refine ⟨u, addrs, rfl, hl, rfl, rfl, rfl, hlen, ?_⟩
        intro j addr ep hj hep
        simpa using hall j addr ep hj hep

theorem currentURL_supported (net : Network) (k : Nat) (rt : RoundTrip) (u : URL)
    (addrs : List String) (hu : rt.Request.URL = some u)
    (hs : u.Scheme = "http" ∨ u.Scheme = "https")
    (hl : net.LookupHost k u.Hostname = .ok addrs) :
    ∃ m, Generate.currentURL net k rt = .returned (.ok m) := by
  obtain ⟨eps, he⟩ := endpoints_supported net k u hs addrs
  refine ⟨{ URL := u.String, DNS := some { Domain := u.Hostname, Addrs := addrs },
            RoundTrip := rt, Endpoints := eps }, ?_⟩
  simp only [Generate.currentURL, hu, hl, he]

theorem currentURL_error (net : Network) (k : Nat) (rt : RoundTrip) (u : URL) (e : GoError)
    (hu : rt.Request.URL = some u) (hl : net.LookupHost k u.Hostname = .error e) :
    Generate.currentURL net k rt = .returned (.error e) := by
  simp only [Generate.currentURL, hu, hl]

theorem probe_returned (net : Network) (k j : Nat) (u : URL) (addr : String)
    (ep : HTTPEndpointMeasurement) (h : Generate.probe net k j u addr = .returned ep) :
    Generate.endpoint u.Scheme addr = some ep.Endpoint ∧
    (∀ e, net.Dial k j ep.Endpoint = some e →
      ep.TCPConnectMeasurement = some { Failure := e.Error } ∧
      ep.TLSHandshakeMeasurement = none) ∧
    (net.Dial k j ep.Endpoint = none →
      ep.TCPConnectMeasurement = some { Failure := "" } ∧
      (u.Scheme ≠ "https" → ep.TLSHandshakeMeasurement = none) ∧
      (u.Scheme = "https" →
        (net.Handshake k j ep.Endpoint u.Hostname = none →
          ep.TLSHandshakeMeasurement = some { Failure := "" }) ∧
        (∀ e, net.Handshake k j ep.Endpoint u.Hostname = some e →
          ep.TLSHandshakeMeasurement = some { Failure := e.Error }))) := by
  unfold Generate.probe at h
  cases hen : Generate.endpoint u.Scheme addr with
  | none => simp [hen] at h
  | some endpoint =>
    simp only [hen] at h
    cases hd : net.Dial k j endpoint with
    | some err =>
      simp only [hd, Outcome.returned.injEq] at h
      subst h
      simp [hd]
    | none =>
      simp only [hd] at h
      by_cases hs : u.Scheme = "https"
      · simp only [hs, if_true] at h
        cases hh : net.Handshake k j endpoint u.Hostname with
        | some err =>
          simp only [hh, Outcome.returned.injEq] at h
          subst h
          simp [hd, hh, hs]
        | none =>
          simp only [hh, Outcome.returned.injEq] at h
          subst h
          simp [hd, hh, hs]
      · simp only [hs, if_false, Outcome.returned.injEq] at h
        subst h
        simp [hd, hs]

theorem Generate_success (net : Network) (rts : List RoundTrip) (out : List URLMeasurement)
    (h : Generate net rts = .returned (out, none)) :
    out.length = rts.length ∧
    ∀ k rt m, rts[k]? = some rt → out[k]? = some m →
      Generate.currentURL net k rt = .returned (.ok m) := by
  obtain ⟨ms, hms, hlen, hall⟩ := loop_returned net rts 0 [] out h
  simp only [List.nil_append] at hms
  subst hms
  refine ⟨hlen, ?_⟩
  intro k rt m hk hm
  simpa using hall k rt m hk hm

theorem Generate_append (net : Network) (pre : List RoundTrip)
    (hpre : ∀ i r, pre[i]? = some r → ∃ m, Generate.currentURL net i r = .returned (.ok m)) :
    ∃ ms : List URLMeasurement, ms.length = pre.length ∧
      Generate net pre = .returned (ms, none) ∧
      ∀ rest, Generate net (pre ++ rest) = Generate.loop net pre.length rest ms := by
  obtain ⟨ms, hlen, _, hloop⟩ := loop_append net pre 0 (by simpa using hpre)
  refine ⟨ms, hlen, ?_, ?_⟩
  · have := hloop [] []
    simp only [List.append_nil, Nat.zero_add, List.nil_append] at this
    rw [Generate, this, Generate.loop]
  · intro rest
    have := hloop rest []
    simpa [Generate] using this

/-- C3: when every round trip has scheme http or https and every hostname lookup succeeds,
Generate returns without error and without panic, whatever the connects and handshakes do: one
URLMeasurement per round trip in the same order (the k-th holds the k-th round trip, its URL
and its hostname as DNS.Domain, with the looked-up addresses), and in it one
HTTPEndpointMeasurement per address, in lookup order (the j-th endpoint is the one derived
from the j-th address). -/
theorem Generate_one_per_round_trip (net : Network) (rts : List RoundTrip)
    (hs : ∀ rt ∈ rts, ∃ u, rt.Request.URL = some u ∧ (u.Scheme = "http" ∨ u.Scheme = "https"))
    (hl : ∀ k rt u, rts[k]? = some rt → rt.Request.URL = some u →
      ∃ addrs, net.LookupHost k u.Hostname = .ok addrs) :
    ∃ out, Generate net rts = .returned (out, none) ∧ out.length = rts.length ∧
      ∀ (k : Nat) (rt : RoundTrip) (u : URL) (addrs : List String),
        rts[k]? = some rt → rt.Request.URL = some u →
        net.LookupHost k u.Hostname = .ok addrs →
        ∃ m : URLMeasurement, out[k]? = some m ∧ m.RoundTrip = rt ∧ m.URL = u.String ∧
          m.DNS = some { Domain := u.Hostname, Addrs := addrs } ∧
          m.Endpoints.length = addrs.length ∧
          ∀ (j : Nat) (addr : String), addrs[j]? = some addr →
            ∃ ep : HTTPEndpointMeasurement, m.Endpoints[j]? = some ep ∧
              Generate.endpoint u.Scheme addr = some ep.Endpoint := by
  have hpre : ∀ i r, rts[i]? = some r →
      ∃ m, Generate.currentURL net i r = .returned (.ok m) := by
    intro i r hi
    obtain ⟨u, hu, hsch⟩ := hs r (List.getElem?_mem hi)
    obtain ⟨addrs, hla⟩ := hl i r u hi hu
    exact currentURL_supported net i r u addrs hu hsch hla
  obtain ⟨ms, hlen, hgen, _⟩ := Generate_append net rts hpre
  refine ⟨ms, hgen, hlen, ?_⟩
  intro k rt u addrs hk hu hla
  have hklt : k < ms.length := by
    rw [hlen]; exact (List.getElem?_eq_some_iff.mp hk).1
  have hm : ms[k]? = some ms[k] := List.getElem?_eq_getElem hklt
  obtain ⟨u', addrs', hu', hla', hurl, hdns, hrt, hel, hall⟩ :=
    currentURL_ok net k rt ms[k] ((Generate_success net rts ms hgen).2 k rt _ hk hm)
  rw [hu] at hu'
  cases hu'
  rw [hla] at hla'
  cases hla'
  refine ⟨ms[k], hm, hrt, hurl, hdns, hel, ?_⟩
  intro j addr hj
  have hjlt : j < ms[k].Endpoints.length := by
    rw [hel]; exact (List.getElem?_eq_some_iff.mp hj).1
  have hep : ms[k].Endpoints[j]? = some ms[k].Endpoints[j] := List.getElem?_eq_getElem hjlt
  exact ⟨_, hep, (probe_returned net k j u addr _ (hall j addr _ hj hep)).1⟩

/-- C4: in every successful result of Generate the measurements stand one per round trip and
the endpoints one per resolved address; for scheme http each endpoint is the address joined
with port 80 and has no TLSHandshakeMeasurement, whatever the TCP outcome; for scheme https
each endpoint is the address joined with port 443 and, when the TCP connect succeeded, a
TLSHandshakeMeasurement is present, with empty Failure after a successful handshake and the
handshake error text otherwise. -/
theorem Generate_endpoints_by_scheme (net : Network) (rts : List RoundTrip)
    (out : List URLMeasurement) (h : Generate net rts = .returned (out, none)) :
    out.length = rts.length ∧
    ∀ k rt m, rts[k]? = some rt → out[k]? = some m →
      ∃ u addrs, rt.Request.URL = some u ∧ net.LookupHost k u.Hostname = .ok addrs ∧
        m.Endpoints.length = addrs.length ∧
        ∀ j addr ep, addrs[j]? = some addr → m.Endpoints[j]? = some ep →
          (u.Scheme = "http" →
            ep.Endpoint = JoinHostPort addr "80" ∧ ep.TLSHandshakeMeasurement = none) ∧
          (u.Scheme = "https" →
            ep.Endpoint = JoinHostPort addr "443" ∧
            (net.Dial k j ep.Endpoint = none →
              (net.Handshake k j ep.Endpoint u.Hostname = none →
                ep.TLSHandshakeMeasurement = some { Failure := "" }) ∧
              (∀ e, net.Handshake k j ep.Endpoint u.Hostname = some e →
                ep.TLSHandshakeMeasurement = some { Failure := e.Error }))) := by
  obtain ⟨hlen, hall⟩ := Generate_success net rts out h
  refine ⟨hlen, ?_⟩
  intro k rt m hk hm
  obtain ⟨u, addrs, hu, hla, _, _, _, hel, hp⟩ := currentURL_ok net k rt m (hall k rt m hk hm)
  refine ⟨u, addrs, hu, hla, hel, ?_⟩
  intro j addr ep hj hep
  obtain ⟨hen, hfail, hok⟩ := probe_returned net k j u addr ep (hp j addr ep hj hep)
  constructor
  · intro hs
    have hne : u.Scheme ≠ "https" := by rw [hs]; decide
    rw [endpoint_supported _ (Or.inl hs), hs] at hen
    simp only [if_true, Option.some.injEq] at hen
    refine ⟨hen.symm, ?_⟩
    cases hd : net.Dial k j ep.Endpoint with
    | some e => exact (hfail e hd).2
    | none => exact (hok hd).2.1 hne
  · intro hs
    have hne : u.Scheme ≠ "http" := by rw [hs]; decide
    rw [endpoint_supported _ (Or.inr hs)] at hen
    simp only [hne, if_false, Option.some.injEq] at hen
    exact ⟨hen.symm, fun hd => (hok hd).2.2 hs⟩

/-- C5: when the lookup fails for a round trip (the round trips before it having been
processed successfully, which alone would have returned their measurements), Generate returns
that error with a nil list of measurements. -/
theorem Generate_lookup_failure (net : Network) (pre : List RoundTrip) (rt : RoundTrip)
    (post : List RoundTrip) (u : URL) (e : GoError)
    (hpre : ∀ i r, pre[i]? = some r → ∃ m, Generate.currentURL net i r = .returned (.ok m))
    (hu : rt.Request.URL = some u)
    (he : net.LookupHost pre.length u.Hostname = .error e) :
    Generate net (pre ++ rt :: post) = .returned ([], some e) ∧
    ∃ ms : List URLMeasurement, ms.length = pre.length ∧
      Generate net pre = .returned (ms, none) := by
  obtain ⟨ms, hlen, hgen, hloop⟩ := Generate_append net pre hpre
  refine ⟨?_, ms, hlen, hgen⟩
  rw [hloop, Generate.loop, currentURL_error net pre.length rt u e hu he]

/-- C6: in every successful result of Generate, connect errors having a non-empty text, an
endpoint whose TCP connect failed has a TCPConnectMeasurement whose Failure is the error text,
non-empty, and no TLSHandshakeMeasurement, for every scheme; an endpoint whose TCP connect
succeeded has a TCPConnectMeasurement with an empty Failure. -/
theorem Generate_tcp_connect (net : Network) (rts : List RoundTrip)
    (out : List URLMeasurement)
    (hne : ∀ k j endpoint e, net.Dial k j endpoint = some e → e.Error ≠ "")
    (h : Generate net rts = .returned (out, none)) :
    out.length = rts.length ∧
    ∀ k m j ep, out[k]? = some m → m.Endpoints[j]? = some ep →
      (∀ e, net.Dial k j ep.Endpoint = some e →
        ep.TCPConnectMeasurement = some { Failure := e.Error } ∧ e.Error ≠ "" ∧
        ep.TLSHandshakeMeasurement = none) ∧
      (net.Dial k j ep.Endpoint = none →
        ep.TCPConnectMeasurement = some { Failure := "" }) := by
  obtain ⟨hlen, hall⟩ := Generate_success net rts out h
  refine ⟨hlen, ?_⟩
  intro k m j ep hm hep
  have hklt : k < rts.length := by
    rw [← hlen]; exact (List.getElem?_eq_some_iff.mp hm).1
  obtain ⟨u, addrs, _, _, _, _, _, hel, hp⟩ :=
    currentURL_ok net k rts[k] m (hall k _ m (List.getElem?_eq_getElem hklt) hm)
  have hjlt : j < addrs.length := by
    rw [← hel]; exact (List.getElem?_eq_some_iff.mp hep).1
  obtain ⟨_, hfail, hok⟩ :=
    probe_returned net k j u addrs[j] ep (hp j _ ep (List.getElem?_eq_getElem hjlt) hep)
  exact ⟨fun e hd => ⟨(hfail e hd).1, hne k j _ e hd, (hfail e hd).2⟩, fun hd => (hok hd).1⟩

theorem probe_endpoint_rel (net net' : Network) (k j : Nat) (u : URL)
    (hs : u.Scheme = "http" ∨ u.Scheme = "https") (addr : String) :
    ∃ ep ep', Generate.probe net k j u addr = .returned ep ∧
      Generate.probe net' k j u addr = .returned ep' ∧ ep.Endpoint = ep'.Endpoint := by
  obtain ⟨ep, hep⟩ := probe_supported net k j u hs addr
  obtain ⟨ep', hep'⟩ := probe_supported net' k j u hs addr
  refine ⟨ep, ep', hep, hep', ?_⟩
  have h1 := (probe_returned net k j u addr ep hep).1
  have h2 := (probe_returned net' k j u addr ep' hep').1
  rw [h1] at h2
  exact Option.some.inj h2

theorem endpoints_rel (net net' : Network) (k : Nat) (u : URL)
    (hs : u.Scheme = "http" ∨ u.Scheme = "https") (addrs : List String) :
    ∀ (j : Nat) (eps eps' : List HTTPEndpointMeasurement),
    eps.map HTTPEndpointMeasurement.Endpoint = eps'.map HTTPEndpointMeasurement.Endpoint →
    ∃ r r', Generate.endpoints net k u j addrs eps = .returned r ∧
      Generate.endpoints net' k u j addrs eps' = .returned r' ∧
      r.map HTTPEndpointMeasurement.Endpoint = r'.map HTTPEndpointMeasurement.Endpoint := by
  induction addrs with
  | nil => intro j eps eps' h; exact ⟨eps, eps', rfl, rfl, h⟩
  | cons a addrs ih =>
    intro j eps eps' h
    obtain ⟨ep, ep', hep, hep', hee⟩ := probe_endpoint_rel net net' k j u hs a
    obtain ⟨r, r', hr, hr', hrr⟩ := ih (j + 1) (eps ++ [ep]) (eps' ++ [ep']) (by simp [h, hee])
    refine ⟨r, r', ?_, ?_, hrr⟩
    · rw [Generate.endpoints]; simp only [hep]; exact hr
    · rw [Generate.endpoints]; simp only [hep']; exact hr'

theorem loop_rel (net net' : Network) (hsame : net'.LookupHost = net.LookupHost)
    (rts : List RoundTrip)
    (hs : ∀ rt ∈ rts, ∃ u, rt.Request.URL = some u ∧ (u.Scheme = "http" ∨ u.Scheme = "https")) :
    ∀ (k : Nat) (out out' : List URLMeasurement),
    out.map (fun m => (m.URL, m.DNS, m.RoundTrip, m.Endpoints.map (fun ep => ep.Endpoint))) =
      out'.map (fun m => (m.URL, m.DNS, m.RoundTrip, m.Endpoints.map (fun ep => ep.Endpoint))) →
    ∃ o o' err, Generate.loop net k rts out = .returned (o, err) ∧
      Generate.loop net' k rts out' = .returned (o', err) ∧
      o.map (fun m => (m.URL, m.DNS, m.RoundTrip, m.Endpoints.map (fun ep => ep.Endpoint))) =
        o'.map (fun m => (m.URL, m.DNS, m.RoundTrip, m.Endpoints.map (fun ep => ep.Endpoint))) := by
  induction rts with
  | nil => intro k out out' h; exact ⟨out, out', none, rfl, rfl, h⟩
  | cons rt rts ih =>
    intro k out out' h
    obtain ⟨u, hu, hsch⟩ := hs rt (by simp)
    have hs' : ∀ r ∈ rts, ∃ u, r.Request.URL = some u ∧
        (u.Scheme = "http" ∨ u.Scheme = "https") := fun r hr => hs r (by simp [hr])
    cases hl : net.LookupHost k u.Hostname with
    | error e =>
      have hl' : net'.LookupHost k u.Hostname = .error e := by rw [hsame]; exact hl
      refine ⟨[], [], some e, ?_, ?_, rfl⟩
      · rw [Generate.loop, currentURL_error net k rt u e hu hl]
      · rw [Generate.loop, currentURL_error net' k rt u e hu hl']
    | ok addrs =>
      have hl' : net'.LookupHost k u.Hostname = .ok addrs := by rw [hsame]; exact hl
      obtain ⟨r, r', hr, hr', hrr⟩ := endpoints_rel net net' k u hsch addrs 0 [] [] rfl
      obtain ⟨o, o', err, ho, ho', hoo⟩ := ih hs' (k + 1)
        (out ++ [{ URL := u.String, DNS := some { Domain := u.Hostname, Addrs := addrs },
                   RoundTrip := rt, Endpoints := r }])
        (out' ++ [{ URL := u.String, DNS := some { Domain := u.Hostname, Addrs := addrs },
                    RoundTrip := rt, Endpoints := r' }])
        (by simp only [List.map_append, h, List.map_cons, List.map_nil]
            rw [show r.map (fun ep => ep.Endpoint) = r'.map (fun ep => ep.Endpoint) from hrr])
      refine ⟨o, o', err, ?_, ?_, hoo⟩
      · rw [Generate.loop]; simp only [Generate.currentURL, hu, hl, hr]; exact ho
      · rw [Generate.loop]; simp only [Generate.currentURL, hu, hl', hr']; exact ho'

theorem loop_error (net : Network) (rts : List RoundTrip) :
    ∀ (k : Nat) (out res : List URLMeasurement) (e : GoError),
    Generate.loop net k rts out = .returned (res, some e) →
    ∃ i rt u, rts[i]? = some rt ∧ rt.Request.URL = some u ∧
      net.LookupHost (k + i) u.Hostname = .error e := by
  induction rts with
  | nil => intro k out res e h; simp [Generate.loop] at h
  | cons rt rts ih =>
    intro k out res e h
    rw [Generate.loop] at h
    cases hc : Generate.currentURL net k rt with
    | panicked msg => simp [hc] at h
    | returned r =>
      cases r with
      | error e' =>
        simp only [hc, Outcome.returned.injEq, Prod.mk.injEq, Option.some.injEq] at h
        obtain ⟨_, rfl⟩ := h
        unfold Generate.currentURL at hc
        cases hu : rt.Request.URL with
        | none => simp [hu] at hc
        | some u =>
          simp only [hu] at hc
          cases hl : net.LookupHost k u.Hostname with
          | error e'' =>
            simp only [hl, Outcome.returned.injEq, Except.error.injEq] at hc
            subst hc
            exact ⟨0, rt, u, by simp, hu, by simpa using hl⟩
          | ok addrs =>
            simp only [hl] at hc
            cases he : Generate.endpoints net k u 0 addrs [] <;> simp [he] at hc
      | ok m0 =>
        simp only [hc] at h
        obtain ⟨i, rt', u, hi, hu, hl⟩ := ih (k + 1) _ res e h
        refine ⟨i + 1, rt', u, by simpa using hi, hu, ?_⟩
        rwa [Nat.add_assoc, Nat.add_comm 1 i] at hl

/-- C7: for round trips with schemes http or https, two networks that agree on the lookups
and differ arbitrarily on connects and handshakes make Generate return (never panic) with the
same error and with measurement lists of the same shape (URL, DNS, round trip and endpoint
strings, in the same order); the error is non-nil exactly when some lookup fails; and without
lookup failure every round trip has its measurement and every address its endpoint. -/
theorem Generate_probe_independent (net net' : Network) (rts : List RoundTrip)
    (hs : ∀ rt ∈ rts, ∃ u, rt.Request.URL = some u ∧ (u.Scheme = "http" ∨ u.Scheme = "https"))
    (hsame : net'.LookupHost = net.LookupHost) :
    ∃ out out' err, Generate net rts = .returned (out, err) ∧
      Generate net' rts = .returned (out', err) ∧
      out.map (fun m => (m.URL, m.DNS, m.RoundTrip, m.Endpoints.map (fun ep => ep.Endpoint))) =
        out'.map (fun m => (m.URL, m.DNS, m.RoundTrip, m.Endpoints.map (fun ep => ep.Endpoint))) ∧
      (err ≠ none ↔ ∃ k rt u e, rts[k]? = some rt ∧ rt.Request.URL = some u ∧
        net.LookupHost k u.Hostname = .error e) ∧
      (err = none → out.length = rts.length ∧
        ∀ (k : Nat) (m : URLMeasurement), out[k]? = some m →
          ∃ d : DNSMeasurement, m.DNS = some d ∧ m.Endpoints.length = d.Addrs.length) := by
  obtain ⟨o, o', err, ho, ho', hoo⟩ := loop_rel net net' hsame rts hs 0 [] [] rfl
  refine ⟨o, o', err, ho, ho', hoo, ?_, ?_⟩
  · constructor
    · intro hne
      cases err with
      | none => exact absurd rfl hne
      | some e =>
        obtain ⟨i, rt, u, hi, hu, hl⟩ := loop_error net rts 0 [] o e ho
        exact ⟨i, rt, u, e, hi, hu, by simpa using hl⟩
    · rintro ⟨k, rt, u, e, hk, hu, hl⟩ hnone
      subst hnone
      obtain ⟨hlen, hall⟩ := Generate_success net rts o ho
      have hklt : k < o.length := by
        rw [hlen]; exact (List.getElem?_eq_some_iff.mp hk).1
      obtain ⟨u', addrs, hu', hla, _⟩ :=
        currentURL_ok net k rt o[k] (hall k rt _ hk (List.getElem?_eq_getElem hklt))
      rw [hu] at hu'
      cases hu'
      rw [hl] at hla
      cases hla
  · intro hnone
    subst hnone
    obtain ⟨hlen, hall⟩ := Generate_success net rts o ho
    refine ⟨hlen, ?_⟩
    intro k m hm
    have hklt : k < rts.length := by
      rw [← hlen]; exact (List.getElem?_eq_some_iff.mp hm).1
    obtain ⟨u, addrs, _, _, _, hdns, _, hel, _⟩ :=
      currentURL_ok net k rts[k] m (hall k _ m (List.getElem?_eq_getElem hklt) hm)
    exact ⟨_, hdns, hel⟩

/-- C8 (amended): when Generate reaches a round trip whose scheme is neither http nor https
(the round trips before it having been processed successfully), it panics if the lookup
returned at least one address, it returns the lookup error with a nil list if the lookup
failed, and it does not panic on that round trip if the lookup returned no address. -/
theorem Generate_unsupported_scheme (net : Network) (pre : List RoundTrip) (rt : RoundTrip)
    (post : List RoundTrip) (u : URL)
    (hpre : ∀ i r, pre[i]? = some r → ∃ m, Generate.currentURL net i r = .returned (.ok m))
    (hu : rt.Request.URL = some u) (h1 : u.Scheme ≠ "http") (h2 : u.Scheme ≠ "https") :
    (∀ a addrs, net.LookupHost pre.length u.Hostname = .ok (a :: addrs) →
      Generate net (pre ++ rt :: post) = .panicked "should not happen") ∧
    (∀ e, net.LookupHost pre.length u.Hostname = .error e →
      Generate net (pre ++ rt :: post) = .returned ([], some e)) ∧
    (net.LookupHost pre.length u.Hostname = .ok [] →
      ∃ out, Generate net (pre ++ [rt]) = .returned (out, none) ∧
        out.length = pre.length + 1) := by
  obtain ⟨ms, hlen, _, hloop⟩ := Generate_append net pre hpre
  have hnone : ∀ addr, Generate.endpoint u.Scheme addr = none := by
    intro addr; simp [Generate.endpoint, h1, h2]
  refine ⟨?_, ?_, ?_⟩
  · intro a addrs hl
    rw [hloop, Generate.loop]
    simp only [Generate.currentURL, hu, hl, endpoints_panicked net pre.length u hnone]
  · intro e hl
    rw [hloop, Generate.loop, currentURL_error net pre.length rt u e hu hl]
  · intro hl
    refine ⟨ms ++ [{ URL := u.String, DNS := some { Domain := u.Hostname, Addrs := [] },
                     RoundTrip := rt, Endpoints := [] }], ?_, by simp [hlen]⟩
    rw [hloop, Generate.loop]
    simp only [Generate.currentURL, hu, hl, Generate.endpoints, Generate.loop]

/-- Witness of C2: on the chain of one hop the result is the single round trip of the
origin request with the body. -/
theorem rearrange_one_per_hop_witness :
    hops chainOne = 1 ∧
    rearrange noSwaps chainOne sampleBody =
      [{ Request := originRequest, Response := chainOne, Body := sampleBody, sortIndex := 0 }] :=
  ⟨rfl, (rearrange_one_per_hop noSwaps chainOne sampleBody).2.2.2.2 rfl⟩

/-- Counterexample to C10 as stated: on the chain of two hops the sort is not a no-op, the
result differs from the append order and starts with the origin round trip (status 301),
where the append order starts with the terminal one (status 200). -/
theorem rearrange_noop_counterexample :
    hops chainTwo = 2 ∧
    (rearrange.loop 0 chainTwo sampleBody []).map (fun rt => rt.Response.StatusCode) =
      [200, 301] ∧
    (rearrange noSwaps chainTwo sampleBody).map (fun rt => rt.Response.StatusCode) =
      [301, 200] ∧
    rearrange noSwaps chainTwo sampleBody ≠ rearrange.loop 0 chainTwo sampleBody [] ∧
    sortHelper.Less (rearrange.loop 0 chainTwo sampleBody []) 0 1 = true ∧
    sortHelper.Less (rearrange.loop 0 chainTwo sampleBody []) 1 0 = true := by
  refine ⟨rfl, rfl, rfl, ?_, rfl, rfl⟩
  intro h
  have h2 := congrArg (List.map (fun rt => rt.Response.StatusCode)) h
  exact absurd h2 (by decide)

/-- Witness of C10 (amended): on the chain of three hops rearrange returns the reverse of the
append order. -/
theorem rearrange_reverses_append_order_witness :
    hops chainThree ≤ 12 ∧
    rearrange noSwaps chainThree sampleBody =
      (rearrange.loop 0 chainThree sampleBody []).reverse :=
  ⟨by decide,
    (rearrange_reverses_append_order noSwaps chainThree sampleBody (by decide)).2.2.2.1⟩

/-- Witness of C3: two round trips, two addresses each, one failing connect per round trip:
Generate returns two measurements. -/
theorem Generate_one_per_round_trip_witness :
    ∃ out, Generate twoAddressNetwork [httpRoundTrip, httpsRoundTrip] = .returned (out, none) ∧
      out.length = 2 := by
  obtain ⟨out, h, hlen, _⟩ := Generate_one_per_round_trip twoAddressNetwork
    [httpRoundTrip, httpsRoundTrip]
    (by
      intro rt hrt
      simp only [List.mem_cons, List.mem_singleton, List.not_mem_nil, or_false] at hrt
      rcases hrt with rfl | rfl
      · exact ⟨_, rfl, Or.inl rfl⟩
      · exact ⟨_, rfl, Or.inr rfl⟩)
    (fun _ _ _ _ _ => ⟨_, rfl⟩)
  exact ⟨out, h, hlen⟩

/-- Witness of C4: the successful result for an http and an https round trip. -/
theorem Generate_endpoints_by_scheme_witness :
    Generate twoAddressNetwork [httpRoundTrip, httpsRoundTrip] =
      .returned
        ([{ URL := "http://example.test/",
            DNS := some { Domain := "example.test", Addrs := ["93.184.216.34", "2001:db8::1"] },
            RoundTrip := httpRoundTrip,
            Endpoints :=
              [{ Endpoint := "93.184.216.34:80",
                 TCPConnectMeasurement := some { Failure := "" },
                 TLSHandshakeMeasurement := none },
               { Endpoint := "[2001:db8::1]:80",
                 TCPConnectMeasurement :=
                   some { Failure := "dial tcp: connect: network is unreachable" },
                 TLSHandshakeMeasurement := none }] },
          { URL := "https://example.test/",
            DNS := some { Domain := "example.test", Addrs := ["93.184.216.34", "2001:db8::1"] },
            RoundTrip := httpsRoundTrip,
            Endpoints :=
              [{ Endpoint := "93.184.216.34:443",
                 TCPConnectMeasurement := some { Failure := "" },
                 TLSHandshakeMeasurement := some { Failure := "" } },
               { Endpoint := "[2001:db8::1]:443",
                 TCPConnectMeasurement :=
                   some { Failure := "dial tcp: connect: network is unreachable" },
                 TLSHandshakeMeasurement := none }] }], none) ∧
    2 = [httpRoundTrip, httpsRoundTrip].length :=
  ⟨rfl, (Generate_endpoints_by_scheme twoAddressNetwork [httpRoundTrip, httpsRoundTrip] _ rfl).1⟩

/-- Witness of C5: the first round trip is processed, the lookup of the second fails:
Generate returns the error and no measurement. -/
theorem Generate_lookup_failure_witness :
    Generate secondLookupFailsNetwork ([httpRoundTrip] ++ httpsRoundTrip :: [httpRoundTrip]) =
      .returned ([], some ⟨"lookup example.test: no such host"⟩) :=
  (Generate_lookup_failure secondLookupFailsNetwork [httpRoundTrip] httpsRoundTrip
    [httpRoundTrip] ⟨"https", "example.test", "https://example.test/"⟩
    ⟨"lookup example.test: no such host"⟩
    (by
      intro i r hi
      match i, hi with
      | 0, hi =>
        simp only [List.getElem?_cons_zero, Option.some.injEq] at hi
        subst hi
        exact ⟨_, rfl⟩
      | i + 1, hi => simp at hi)
    rfl rfl).1

/-- Witness of C6: with connect errors of non-empty text, the successful result for the
https round trip has as many measurements as round trips. -/
theorem Generate_tcp_connect_witness :
    (∀ k j endpoint e, twoAddressNetwork.Dial k j endpoint = some e → e.Error ≠ "") ∧
    ∃ out, Generate twoAddressNetwork [httpsRoundTrip] = .returned (out, none) ∧
      out.map (fun m => m.Endpoints) =
        [[{ Endpoint := "93.184.216.34:443",
            TCPConnectMeasurement := some { Failure := "" },
            TLSHandshakeMeasurement := some { Failure := "" } },
          { Endpoint := "[2001:db8::1]:443",
            TCPConnectMeasurement :=
              some { Failure := "dial tcp: connect: network is unreachable" },
            TLSHandshakeMeasurement := none }]] ∧
      out.length = [httpsRoundTrip].length := by
  have hne : ∀ k j endpoint e, twoAddressNetwork.Dial k j endpoint = some e → e.Error ≠ "" := by
    intro k j endpoint e h
    simp only [twoAddressNetwork] at h
    split at h
    · cases h
    · cases h; decide
  exact ⟨hne, _, rfl, rfl, (Generate_tcp_connect twoAddressNetwork [httpsRoundTrip] _ hne rfl).1⟩

/-- Witness of C7: two networks with the same lookups and different connect and handshake
outcomes. -/
theorem Generate_probe_independent_witness :
    ∃ out out' err,
      Generate twoAddressNetwork [httpRoundTrip, httpsRoundTrip] = .returned (out, err) ∧
      Generate handshakeFailsNetwork [httpRoundTrip, httpsRoundTrip] = .returned (out', err) ∧
      out.map (fun m => (m.URL, m.DNS, m.RoundTrip, m.Endpoints.map (fun ep => ep.Endpoint))) =
        out'.map (fun m => (m.URL, m.DNS, m.RoundTrip, m.Endpoints.map (fun ep => ep.Endpoint))) := by
  obtain ⟨out, out', err, h, h', hshape, _⟩ := Generate_probe_independent twoAddressNetwork
    handshakeFailsNetwork [httpRoundTrip, httpsRoundTrip]
    (by
      intro rt hrt
      simp only [List.mem_cons, List.mem_singleton, List.not_mem_nil, or_false] at hrt
      rcases hrt with rfl | rfl
      · exact ⟨_, rfl, Or.inl rfl⟩
      · exact ⟨_, rfl, Or.inr rfl⟩)
    rfl
  exact ⟨out, out', err, h, h', hshape⟩

/-- Counterexample to C8 as stated: a list holding a round trip with scheme ftp on which
Generate does not panic: it returns the lookup error when the lookup fails, and it returns a
measurement without endpoints when the lookup returns no address. -/
theorem Generate_unsupported_scheme_counterexample :
    ftpRoundTrip.Request.URL = some ⟨"ftp", "example.test", "ftp://example.test/"⟩ ∧
    Generate noSuchHostNetwork [ftpRoundTrip] =
      .returned ([], some ⟨"lookup example.test: no such host"⟩) ∧
    Generate emptyLookupNetwork [ftpRoundTrip] =
      .returned ([{ URL := "ftp://example.test/",
                    DNS := some { Domain := "example.test", Addrs := [] },
                    RoundTrip := ftpRoundTrip,
                    Endpoints := [] }], none) :=
  ⟨rfl, rfl, rfl⟩

/-- Witness of C8 (amended): the ftp round trip panics once its lookup returns an address. -/
theorem Generate_unsupported_scheme_witness :
    Generate twoAddressNetwork ([httpRoundTrip] ++ ftpRoundTrip :: [httpsRoundTrip]) =
      .panicked "should not happen" :=
  (Generate_unsupported_scheme twoAddressNetwork [httpRoundTrip] ftpRoundTrip [httpsRoundTrip]
    ⟨"ftp", "example.test", "ftp://example.test/"⟩
    (by
      intro i r hi
      match i, hi with
      | 0, hi =>
        simp only [List.getElem?_cons_zero, Option.some.injEq] at hi
        subst hi
        exact ⟨_, rfl⟩
      | i + 1, hi => simp at hi)
    rfl (by decide) (by decide)).1 _ _ rfl

end Thp
